import Mathlib

/-!
# 0x-cfl: `src/swap-contract.js`

A shallow embedding of the command-line swap script: the `run` function
(deposit, quote fetch, fill, result extraction) and the command handler that
wraps it.  `run` is sequential JavaScript whose only branching is failure, so
it is embedded as a computation that returns the ordered list of calls it made
to its collaborators together with its completion (normal, or the thrown
error).  What each collaborator answers in one run is collected in `World`.

The helpers imported from `./utils` (`createWeb3`, `createQueryString`,
`etherToWei`, `waitForTxSuccess`, `weiToEther`), the `web3` contract binding,
`node-fetch` and `console` are collaborators: their answers are parameters.
-/

namespace SwapContract

/-! ## JavaScript values -/

/-- The values `run` handles: `undefined` and everything `JSON.parse` can
produce.  Numbers are modelled on the integers (zero is the falsy one); an
object is its list of own properties, read by first match. -/
inductive JsVal where
  | undefined
  | null
  | bool (b : Bool)
  | num (n : Int)
  | str (s : String)
  | arr (items : List JsVal)
  | obj (fields : List (String × JsVal))

/-- What a JavaScript `throw` or a rejected promise carries: a `TypeError`
raised by the language itself, or an error raised by a collaborator. -/
inductive JsErr where
  | typeError (msg : String)
  | thrown (tag : String)
deriving DecidableEq, Repr

/-- A promise that `run` holds without awaiting it and without a rejection
handler: how it settles, and how many of the later suspensions of `run`
(its `await`s) complete before it does. -/
structure JsPromise where
  settled : Except JsErr JsVal
  delay : Nat

/-- `Object.prototype.toString` applied to a promise. -/
def JsPromise.toString (_p : JsPromise) : String := "[object Promise]"

/-- JavaScript truthiness (`ToBoolean`). -/
def truthy : JsVal → Bool
  | .undefined => false
  | .null => false
  | .bool b => b
  | .num n => n != 0
  | .str s => s != ""
  | .arr _ => true
  | .obj _ => true

/-- Own property `key` of a value, `undefined` when there is none.  Only
objects carry named own properties; none of the names `run` reads
(`sellAmount`, `sellToken`, `buyToken`, `issues`, `allowance`, `spender`,
`transaction`, `to`, `data`, `value`, `gasPrice`, `events`, `BoughtTokens`,
`returnValues`, `boughtAmount`) is defined on a built-in prototype. -/
def JsVal.get (v : JsVal) (key : String) : JsVal :=
  match v with
  | .obj fields => (fields.lookup key).getD .undefined
  | _ => .undefined

/-- The member expression `v.key`: a `TypeError` on `undefined` and `null`,
the property value (or `undefined`) otherwise. -/
def getProp (v : JsVal) (key : String) : Except JsErr JsVal :=
  match v with
  | .undefined =>
    .error (.typeError ("Cannot read properties of undefined (reading '" ++ key ++ "')"))
  | .null =>
    .error (.typeError ("Cannot read properties of null (reading '" ++ key ++ "')"))
  | w => .ok (w.get key)

/-- The short-circuit `a && b`. -/
def jsAnd (a : Except JsErr JsVal) (b : Unit → Except JsErr JsVal) : Except JsErr JsVal :=
  match a with
  | .error e => .error e
  | .ok v => if truthy v then b () else .ok v

/-- The short-circuit `a || b`. -/
def jsOr (a : Except JsErr JsVal) (b : Unit → Except JsErr JsVal) : Except JsErr JsVal :=
  match a with
  | .error e => .error e
  | .ok v => if truthy v then .ok v else b ()

mutual
/-- Whether `ToString` (as applied by a template literal) throws on a value:
a plain object with an own `toString` property has no callable conversion
left (`Object.prototype.valueOf` returns the object), and an array joins the
conversions of its elements. -/
def toStringThrows : JsVal → Bool
  | .arr items => anyToStringThrows items
  | .obj fields => (fields.lookup "toString").isSome
  | _ => false
/-- Whether the conversion of some array element throws. -/
def anyToStringThrows : List JsVal → Bool
  | [] => false
  | x :: rest => toStringThrows x || anyToStringThrows rest
end

/-- The template-literal substitution `${v}`, kept as the value it renders. -/
def interpolate (v : JsVal) : Except JsErr JsVal :=
  if toStringThrows v then .error (.typeError "Cannot convert object to primitive value")
  else .ok v

/-! ## Collaborators and traces -/

/-- The lines `run` writes with `console.info`. -/
inductive Message where
  | depositing (sellAmount deployedAddress : String)
  | fetchingSwapQuote (sellAmount : String)
  | fetchingQuote (quoteUrl : String)
  | receivedQuote (price : JsVal)
  | filling (deployedAddress : String)
  | success (sellAmount boughtAmount : String)

/-- The calls `run` and the command handler make to their collaborators;
`uncaught` is the runtime writing an unhandled rejection to the standard
error stream. -/
inductive Action where
  | createWeb3
  | newContract (deployedAddress : String)
  | getAccounts
  | getChainId
  | etherToWei (amount : String)
  | info (m : Message)
  | sendDeposit (options : JsVal)
  | waitDeposit
  | createQueryString (params : JsVal)
  | fetch (url : String)
  | json
  | sendFill (args : List JsVal) (options : JsVal)
  | waitFill
  | weiToEther (amount : JsVal)
  | consoleError (err : JsErr)
  | exit (code : Nat)
  | uncaught (err : JsErr)

/-- The HTTP response `fetch` resolves to: its status flag and what
`response.json()` settles to. -/
structure Response where
  ok : Bool
  json : Except JsErr JsVal

/-- The parsed command line: the positional `deployedAddress` and the
`sellAmount` option, a number kept in its printed form (default `0.1`). -/
structure Argv where
  deployedAddress : String
  sellAmount : String

/-- What every collaborator answers in one run: `.error` is a synchronous
throw or a rejected promise, `.ok` the returned or resolved value. -/
structure World where
  createWeb3 : Except JsErr Unit
  newContract : Except JsErr Unit
  getAccounts : Except JsErr (List JsVal)
  getChainId : Except JsErr JsPromise
  etherToWei : Except JsErr JsVal
  depositSend : Except JsErr Unit
  depositWait : Except JsErr JsVal
  createQueryString : Except JsErr String
  fetch : Except JsErr Response
  fillSend : Except JsErr Unit
  fillWait : Except JsErr JsVal
  weiToEther : Except JsErr String

/-- A finished computation: the calls made, in order, and how it completed. -/
structure Outcome (α : Type) where
  trace : List Action
  result : Except JsErr α

/-- Sequencing: the continuation runs only after a normal completion. -/
def Outcome.bind {α β : Type} (m : Outcome α) (f : α → Outcome β) : Outcome β :=
  match m.result with
  | .error e => ⟨m.trace, .error e⟩
  | .ok a => ⟨m.trace ++ (f a).trace, (f a).result⟩

instance : Monad Outcome where
  pure a := ⟨[], .ok a⟩
  bind := Outcome.bind

/-- Call a collaborator: the call is recorded and its answer returned. -/
def perform {α : Type} (a : Action) (answer : Except JsErr α) : Outcome α :=
  ⟨[a], answer⟩

/-- Evaluate an expression of the language itself, which may throw. -/
def eval {α : Type} (r : Except JsErr α) : Outcome α :=
  ⟨[], r⟩

/-- The call `console.info(m)`. -/
def consoleInfo (m : Message) : Outcome Unit :=
  perform (.info m) (.ok ())

/-! ## The script -/

def API_QUOTE_URL : String := "https://api.0x.org/swap/allowance-holder/quote"

def ZERO_ADDRESS : String := "0x0000000000000000000000000000000000000000"

/-- The third element of the array literal `fillQuoteParams`:
`(quote.issues && quote.issues.allowance && quote.issues.allowance.spender)
|| "0x0000000000000000000000000000000000000000"`. -/
def spenderParam (quote : JsVal) : Except JsErr JsVal :=
  jsOr
    (jsAnd
      (jsAnd (getProp quote "issues")
        (fun _ => do getProp (← getProp quote "issues") "allowance"))
      (fun _ => do
        getProp (← getProp (← getProp quote "issues") "allowance") "spender"))
    (fun _ => .ok (.str ZERO_ADDRESS))

/-- The array literal `fillQuoteParams` of `run`, elements evaluated left to
right. -/
def fillQuoteParams (quote : JsVal) : Except JsErr (List JsVal) := do
  let sellToken ← getProp quote "sellToken"
  let buyToken ← getProp quote "buyToken"
  let spender ← spenderParam quote
  let target ← getProp (← getProp quote "transaction") "to"
  let data ← getProp (← getProp quote "transaction") "data"
  pure [sellToken, buyToken, spender, target, data]

/-- The substitution `${quote.sellAmount}` of the "Received a quote" line. -/
def quotePrice (quote : JsVal) : Except JsErr JsVal := do
  interpolate (← getProp quote "sellAmount")

/-- The expression `receipt.events.BoughtTokens.returnValues.boughtAmount`. -/
def boughtAmountOf (receipt : JsVal) : Except JsErr JsVal := do
  getProp (← getProp (← getProp (← getProp receipt "events") "BoughtTokens")
    "returnValues") "boughtAmount"

/-- The function `run(argv)`. -/
def run (w : World) (argv : Argv) : Outcome Unit := do
  perform .createWeb3 w.createWeb3
  perform (.newContract argv.deployedAddress) w.newContract
  let accounts ← perform .getAccounts w.getAccounts
  let owner := accounts.headD .undefined
  let chainId ← perform .getChainId w.getChainId
  let sellAmountWei ← perform (.etherToWei argv.sellAmount) w.etherToWei
  consoleInfo (.depositing argv.sellAmount argv.deployedAddress)
  perform (.sendDeposit (.obj [("value", sellAmountWei), ("from", owner)])) w.depositSend
  let _ ← perform .waitDeposit w.depositWait
  consoleInfo (.fetchingSwapQuote argv.sellAmount)
  let qs ← perform
    (.createQueryString (.obj [
      ("chainId", .str chainId.toString),
      ("sellToken", .str "0xc02aaa39b223fe8d0a0e5c4f27ead9083c756cc2"),
      ("buyToken", .str "0x6B175474E89094C44Da98b954EedeAC495271d0F"),
      ("sellAmount", sellAmountWei),
      ("taker", owner)]))
    w.createQueryString
  let quoteUrl := API_QUOTE_URL ++ "?" ++ qs
  consoleInfo (.fetchingQuote quoteUrl)
  let response ← perform (.fetch quoteUrl) w.fetch
  let quote ← perform .json response.json
  let price ← eval (quotePrice quote)
  consoleInfo (.receivedQuote price)
  consoleInfo (.filling argv.deployedAddress)
  let params ← eval (fillQuoteParams quote)
  let value ← eval (getProp quote "value")
  let gasPrice ← eval (getProp quote "gasPrice")
  perform
    (.sendFill params (.obj [("from", owner), ("value", value), ("gasPrice", gasPrice)]))
    w.fillSend
  let receipt ← perform .waitFill w.fillWait
  let amount ← eval (boughtAmountOf receipt)
  let boughtAmount ← perform (.weiToEther amount) w.weiToEther
  consoleInfo (.success argv.sellAmount boughtAmount)

/-- The command handler: `run`, then `process.exit(0)`; on a throw,
`console.error(err)` and `process.exit(1)`. -/
def handler (w : World) (argv : Argv) : List Action :=
  match (run w argv).result with
  | .ok _ => (run w argv).trace ++ [.exit 0]
  | .error err => (run w argv).trace ++ [.consoleError err, .exit 1]

/-- The calls at which `run` is suspended while the promise of line 49 is
pending: the `await`s after that line. -/
def Action.suspends : Action → Bool
  | .waitDeposit => true
  | .fetch _ => true
  | .json => true
  | .waitFill => true
  | _ => false

/-- The calls of a trace up to its suspension number `n` (counted from 0),
when the trace has that many. -/
def cutAt : Nat → List Action → Option (List Action)
  | _, [] => none
  | n, a :: rest =>
    if a.suspends then
      match n with
      | 0 => some [a]
      | m + 1 => (cutAt m rest).map (fun calls => a :: calls)
    else (cutAt n rest).map (fun calls => a :: calls)

/-- The unhandled rejection that ends the process, with the calls made until
then: the promise of line 49 rejects while `run` is suspended.  When `run`
is over before the promise settles, nothing happens. -/
def killed (w : World) (argv : Argv) : Option (List Action × JsErr) :=
  match w.getChainId with
  | .ok { settled := .error e, delay := n } =>
    (cutAt n (run w argv).trace).map (fun calls => (calls, e))
  | _ => none

/-- The process running the command: the handler, unless an unhandled
rejection reaches the runtime first, which then writes the error to the
standard error stream and ends the process with code 1 (the default of
Node.js since version 15), outside the handler's `try`/`catch`. -/
def command (w : World) (argv : Argv) : List Action :=
  match killed w argv with
  | some (calls, e) => calls ++ [.uncaught e, .exit 1]
  | none => handler w argv

/-- The error in an answer, if it is one. -/
def errorOf {α : Type} (r : Except JsErr α) : Option JsErr :=
  match r with
  | .error e => some e
  | .ok _ => none

/-- The error with which the world answers a call (a synchronous throw or
the rejection of the awaited promise), if it does. -/
def World.failure (w : World) : Action → Option JsErr
  | .createWeb3 => errorOf w.createWeb3
  | .newContract _ => errorOf w.newContract
  | .getAccounts => errorOf w.getAccounts
  | .getChainId => errorOf w.getChainId
  | .etherToWei _ => errorOf w.etherToWei
  | .sendDeposit _ => errorOf w.depositSend
  | .waitDeposit => errorOf w.depositWait
  | .createQueryString _ => errorOf w.createQueryString
  | .fetch _ => errorOf w.fetch
  | .json =>
    match w.fetch with
    | .ok response => errorOf response.json
    | .error _ => none
  | .sendFill _ _ => errorOf w.fillSend
  | .waitFill => errorOf w.fillWait
  | .weiToEther _ => errorOf w.weiToEther
  | _ => none

/-- A computation throws the error of every failed call it made. -/
def FailFast (w : World) {α : Type} (m : Outcome α) : Prop :=
  ∀ a e, a ∈ m.trace → w.failure a = some e → m.result = .error e

/-! ## Observations on traces -/

/-- The five protocol steps among the calls of `run`. -/
inductive Step where
  | depositSend
  | depositWait
  | quoteFetch
  | fillSend
  | fillWait
deriving DecidableEq, Repr

/-- The protocol step a call stands for, if any. -/
def Action.step : Action → Option Step
  | .sendDeposit _ => some .depositSend
  | .waitDeposit => some .depositWait
  | .fetch _ => some .quoteFetch
  | .sendFill _ _ => some .fillSend
  | .waitFill => some .fillWait
  | _ => none

/-- The protocol steps of a trace, in order. -/
def steps (t : List Action) : List Step := t.filterMap Action.step

/-- The fixed order of the protocol steps. -/
def protocol : List Step :=
  [.depositSend, .depositWait, .quoteFetch, .fillSend, .fillWait]

/-- The `fillQuote(...args).send(options)` calls of a trace. -/
def fillCalls (t : List Action) : List (List JsVal × JsVal) :=
  t.filterMap fun a =>
    match a with
    | .sendFill args options => some (args, options)
    | _ => none

/-- The `depositETH().send(options)` calls of a trace. -/
def depositCalls (t : List Action) : List JsVal :=
  t.filterMap fun a =>
    match a with
    | .sendDeposit options => some options
    | _ => none

/-- The parameter objects handed to `createQueryString` in a trace. -/
def queries (t : List Action) : List JsVal :=
  t.filterMap fun a =>
    match a with
    | .createQueryString params => some params
    | _ => none

/-- The success lines of a trace: sold amount and bought amount. -/
def successLines (t : List Action) : List (String × String) :=
  t.filterMap fun a =>
    match a with
    | .info (.success sold bought) => some (sold, bought)
    | _ => none

/-- The exit codes passed to `process.exit` in a trace. -/
def exitCodes (t : List Action) : List Nat :=
  t.filterMap fun a =>
    match a with
    | .exit code => some code
    | _ => none

/-- The errors written with `console.error` in a trace. -/
def errorLines (t : List Action) : List JsErr :=
  t.filterMap fun a =>
    match a with
    | .consoleError err => some err
    | _ => none

/-- The errors written to the standard error stream in a trace, by
`console.error` or by the runtime. -/
def stderrLines (t : List Action) : List JsErr :=
  t.filterMap fun a =>
    match a with
    | .consoleError err => some err
    | .uncaught err => some err
    | _ => none

/-- Whether `response.json()` was called in a trace. -/
def parsesBody (t : List Action) : Bool :=
  t.any fun a =>
    match a with
    | .json => true
    | _ => false

/-- Own property `key` of a value when it has one. -/
def ownProp (v : JsVal) (key : String) : Option JsVal :=
  match v with
  | .obj fields => fields.lookup key
  | _ => none

/-- The third fill argument in words: the quote's `issues.allowance.spender`
when that is truthy, the zero address otherwise. -/
def spenderOrZero (quote : JsVal) : JsVal :=
  if truthy (((quote.get "issues").get "allowance").get "spender") then
    ((quote.get "issues").get "allowance").get "spender"
  else .str ZERO_ADDRESS

/-! ## Scenarios -/

/-- A command line: a deployed address and the default sell amount. -/
def argv0 : Argv :=
  { deployedAddress := "0x5FbDB2315678afecb367f032d93F642f64180aa3", sellAmount := "0.1" }

/-- The quote of the end-to-end scenario: no `issues` field. -/
def quote0 : JsVal :=
  .obj [
    ("sellToken", .str "0xc02aaa39b223fe8d0a0e5c4f27ead9083c756cc2"),
    ("buyToken", .str "0x6B175474E89094C44Da98b954EedeAC495271d0F"),
    ("sellAmount", .str "100000000000000000"),
    ("transaction", .obj [("to", .str "0xFILL"), ("data", .str "0xabc")]),
    ("value", .str "0"),
    ("gasPrice", .str "1000000000")]

/-- A fill receipt carrying the `BoughtTokens` event. -/
def receipt0 : JsVal :=
  .obj [
    ("status", .bool true),
    ("events", .obj [
      ("BoughtTokens", .obj [
        ("returnValues", .obj [("boughtAmount", .str "250000000000000000000")])])])]

/-- A world in which every collaborator succeeds and the quoting service
answers `quote`. -/
def worldWith (quote : JsVal) : World :=
  { createWeb3 := .ok ()
    newContract := .ok ()
    getAccounts := .ok [.str "0xf39Fd6e51aad88F6F4ce6aB8827279cffFb92266"]
    getChainId := .ok { settled := .ok (.num 1), delay := 0 }
    etherToWei := .ok (.str "100000000000000000")
    depositSend := .ok ()
    depositWait := .ok (.obj [("status", .bool true)])
    createQueryString := .ok "chainId=[object Promise]&sellAmount=100000000000000000"
    fetch := .ok { ok := true, json := .ok quote }
    fillSend := .ok ()
    fillWait := .ok receipt0
    weiToEther := .ok "250" }

/-- The fill arguments for the scenario quotes, given the third one. -/
def fillArgs0 (spender : JsVal) : List JsVal :=
  [.str "0xc02aaa39b223fe8d0a0e5c4f27ead9083c756cc2",
    .str "0x6B175474E89094C44Da98b954EedeAC495271d0F",
    spender, .str "0xFILL", .str "0xabc"]

/-- The send options of the fill for the scenario quotes. -/
def fillOptions0 : JsVal :=
  .obj [("from", .str "0xf39Fd6e51aad88F6F4ce6aB8827279cffFb92266"),
    ("value", .str "0"), ("gasPrice", .str "1000000000")]

/-- The end-to-end scenario. -/
def world0 : World := worldWith quote0

/-- The deposit is mined and reverts. -/
def worldDepositReverts : World :=
  { world0 with depositWait := .error (.thrown "Transaction has been reverted by the EVM") }

/-- The fill is mined and reverts. -/
def worldFillReverts : World :=
  { world0 with fillWait := .error (.thrown "Transaction has been reverted by the EVM") }

/-- The quote request is refused by the network. -/
def worldFetchRejects : World :=
  { world0 with fetch := .error (.thrown "request to https://api.0x.org failed") }

/-- The chain-id request fails while `run` waits for the quote: one later
suspension (the deposit wait) completes before the promise rejects. -/
def worldChainIdRejects : World :=
  { world0 with
    getChainId := .ok { settled := .error (.thrown "Invalid JSON RPC response"), delay := 1 } }

/-- The chain-id request fails only after the process has exited. -/
def worldChainIdLate : World :=
  { world0 with
    getChainId := .ok { settled := .error (.thrown "Invalid JSON RPC response"), delay := 4 } }

/-- A quote whose `transaction` has `data` but no `to`. -/
def quoteNoTarget : JsVal :=
  .obj [
    ("sellToken", .str "0xc02aaa39b223fe8d0a0e5c4f27ead9083c756cc2"),
    ("buyToken", .str "0x6B175474E89094C44Da98b954EedeAC495271d0F"),
    ("sellAmount", .str "100000000000000000"),
    ("transaction", .obj [("data", .str "0xabc")]),
    ("value", .str "0"),
    ("gasPrice", .str "1000000000")]

/-- The quoting service answers `quoteNoTarget`; the contract binding
refuses the call it is then given. -/
def worldNoTarget : World :=
  { worldWith quoteNoTarget with fillSend := .error (.thrown "invalid address") }

/-- A quote without any `transaction`. -/
def quoteNoTransaction : JsVal :=
  .obj [
    ("sellToken", .str "0xc02aaa39b223fe8d0a0e5c4f27ead9083c756cc2"),
    ("buyToken", .str "0x6B175474E89094C44Da98b954EedeAC495271d0F"),
    ("sellAmount", .str "100000000000000000"),
    ("value", .str "0"),
    ("gasPrice", .str "1000000000")]

/-- A quote whose `issues.allowance.spender` is `spender`. -/
def quoteWithSpender (spender : JsVal) : JsVal :=
  .obj [
    ("sellToken", .str "0xc02aaa39b223fe8d0a0e5c4f27ead9083c756cc2"),
    ("buyToken", .str "0x6B175474E89094C44Da98b954EedeAC495271d0F"),
    ("sellAmount", .str "100000000000000000"),
    ("issues", .obj [("allowance", .obj [("actual", .str "0"), ("spender", spender)])]),
    ("transaction", .obj [("to", .str "0xFILL"), ("data", .str "0xabc")]),
    ("value", .str "0"),
    ("gasPrice", .str "1000000000")]

/-- A quote with an `issues` object that has no `allowance`. -/
def quoteNoAllowance : JsVal :=
  .obj [
    ("sellToken", .str "0xc02aaa39b223fe8d0a0e5c4f27ead9083c756cc2"),
    ("buyToken", .str "0x6B175474E89094C44Da98b954EedeAC495271d0F"),
    ("sellAmount", .str "100000000000000000"),
    ("issues", .obj [("simulationIncomplete", .bool false)]),
    ("transaction", .obj [("to", .str "0xFILL"), ("data", .str "0xabc")]),
    ("value", .str "0"),
    ("gasPrice", .str "1000000000")]

/-- The quoting service answers with a non-success status and a body. -/
def worldNotOk : World :=
  { world0 with fetch := .ok { ok := false, json := .ok quote0 } }

/-- A fill receipt whose `events` has no `BoughtTokens` entry. -/
def receiptNoEvent : JsVal :=
  .obj [("status", .bool true), ("events", .obj [])]

/-- The fill succeeds and its receipt is `receiptNoEvent`. -/
def worldNoEvent : World :=
  { world0 with fillWait := .ok receiptNoEvent }

/-! ## Lemmas on the expression language -/

theorem getProp_eq_ok {v a : JsVal} {key : String} (h : getProp v key = .ok a) :
    a = v.get key := by
  cases v <;> simp [getProp] at h <;> exact h.symm

theorem getProp_of_truthy {v : JsVal} (key : String) (h : truthy v = true) :
    getProp v key = .ok (v.get key) := by
  cases v <;> simp_all [getProp, truthy]

theorem get_of_not_truthy {v : JsVal} (key : String) (h : truthy v = false) :
    v.get key = .undefined := by
  cases v <;> simp_all [JsVal.get, truthy]

theorem getProp_of_defined {v : JsVal} (key : String) (hu : v ≠ .undefined) (hn : v ≠ .null) :
    getProp v key = .ok (v.get key) := by
  cases v <;> simp_all [getProp]

theorem defined_of_getProp {v a : JsVal} {key : String} (h : getProp v key = .ok a) :
    v ≠ .undefined ∧ v ≠ .null := by
  cases v <;> simp_all [getProp]

theorem spenderParam_eq (quote : JsVal) (hu : quote ≠ .undefined) (hn : quote ≠ .null) :
    spenderParam quote = .ok (spenderOrZero quote) := by
  have hi := getProp_of_defined "issues" hu hn
  have e0 : truthy JsVal.undefined = false := rfl
  unfold spenderParam spenderOrZero
  rw [hi]
  cases h1 : truthy (quote.get "issues")
  · have e1 := get_of_not_truthy "allowance" h1
    have e2 : JsVal.undefined.get "spender" = .undefined := rfl
    simp [jsAnd, jsOr, h1, e0, e1, e2]
  · have g1 := getProp_of_truthy "allowance" h1
    cases h2 : truthy ((quote.get "issues").get "allowance")
    · have e2 := get_of_not_truthy "spender" h2
      simp [jsAnd, jsOr, h1, h2, g1, e0, e2, bind, Except.bind]
    · have g2 := getProp_of_truthy "spender" h2
      cases h3 : truthy (((quote.get "issues").get "allowance").get "spender") <;>
        simp [jsAnd, jsOr, h1, h2, h3, g1, g2, bind, Except.bind]

theorem fillQuoteParams_of_defined {quote : JsVal}
    (hu : quote ≠ .undefined) (hn : quote ≠ .null)
    (htu : quote.get "transaction" ≠ .undefined) (htn : quote.get "transaction" ≠ .null) :
    fillQuoteParams quote =
      .ok [quote.get "sellToken", quote.get "buyToken", spenderOrZero quote,
        (quote.get "transaction").get "to", (quote.get "transaction").get "data"] := by
  unfold fillQuoteParams
  rw [spenderParam_eq quote hu hn]
  simp only [getProp_of_defined _ hu hn, getProp_of_defined _ htu htn,
    bind, Except.bind, pure, Except.pure]

theorem fillQuoteParams_error {quote : JsVal}
    (ht : quote.get "transaction" = .undefined ∨ quote.get "transaction" = .null) :
    ∃ msg, fillQuoteParams quote = .error (.typeError msg) := by
  unfold fillQuoteParams
  by_cases hu : quote = .undefined
  · subst hu; simp [getProp, bind, Except.bind]
  by_cases hn : quote = .null
  · subst hn; simp [getProp, bind, Except.bind]
  rw [spenderParam_eq quote hu hn]
  simp only [getProp_of_defined _ hu hn, bind, Except.bind]
  rcases ht with ht | ht <;> simp [ht, getProp]

theorem fillQuoteParams_eq_ok {quote : JsVal} {args : List JsVal}
    (h : fillQuoteParams quote = .ok args) :
    args = [quote.get "sellToken", quote.get "buyToken", spenderOrZero quote,
      (quote.get "transaction").get "to", (quote.get "transaction").get "data"] := by
  by_cases ht : quote.get "transaction" = .undefined ∨ quote.get "transaction" = .null
  · obtain ⟨msg, hm⟩ := fillQuoteParams_error ht
    rw [hm] at h
    cases h
  · have hu : quote ≠ .undefined := by
      intro hq; apply ht; left; subst hq; rfl
    have hn : quote ≠ .null := by
      intro hq; apply ht; left; subst hq; rfl
    rw [fillQuoteParams_of_defined hu hn (fun hh => ht (Or.inl hh)) (fun hh => ht (Or.inr hh))] at h
    injection h with h
    exact h.symm


/-! ## Lemmas on `run` -/

/-- Everything known about a run whose trace contains a fill call. -/
theorem fill_call_inv {w : World} {argv : Argv} {args : List JsVal} {options : JsVal}
    (h : (args, options) ∈ fillCalls (run w argv).trace) :
    ∃ accounts receipt resp quote,
      w.getAccounts = .ok accounts ∧ w.depositWait = .ok receipt ∧
      w.fetch = .ok resp ∧ resp.json = .ok quote ∧
      fillQuoteParams quote = .ok args ∧
      options = .obj [("from", accounts.headD .undefined), ("value", quote.get "value"),
        ("gasPrice", quote.get "gasPrice")] := by
  simp only [run, bind, Outcome.bind, perform, eval, consoleInfo] at h
  repeat' split at h
  all_goals simp_all [fillCalls]
  all_goals exact ⟨getProp_eq_ok (by assumption), getProp_eq_ok (by assumption)⟩

/-- A run makes at most one fill call. -/
theorem fill_calls_le_one (w : World) (argv : Argv) :
    (fillCalls (run w argv).trace).length ≤ 1 := by
  simp only [run, bind, Outcome.bind, perform, eval, consoleInfo]
  repeat' split
  all_goals simp [fillCalls]

/-- `run` itself never exits the process nor writes to the error stream. -/
theorem run_no_exit (w : World) (argv : Argv) :
    exitCodes (run w argv).trace = [] ∧ errorLines (run w argv).trace = [] := by
  simp only [run, bind, Outcome.bind, perform, eval, consoleInfo]
  repeat' split
  all_goals simp [exitCodes, errorLines]

/-- The success line is the last call of a run that completes, and a run that
throws has not written it. -/
theorem success_line_iff (w : World) (argv : Argv) :
    ((run w argv).result = .ok () → (successLines (run w argv).trace).length = 1) ∧
    (∀ e, (run w argv).result = .error e → successLines (run w argv).trace = []) := by
  simp only [run, bind, Outcome.bind, perform, eval, consoleInfo]
  repeat' split
  all_goals simp_all [successLines]


/-- A run that reached the quote fetch had its deposit confirmed. -/
theorem fetch_reached_inv {w : World} {argv : Argv}
    (h : Step.quoteFetch ∈ steps (run w argv).trace) :
    ∃ accounts promise wei receipt qs,
      w.createWeb3 = .ok () ∧ w.newContract = .ok () ∧ w.getAccounts = .ok accounts ∧
      w.getChainId = .ok promise ∧ w.etherToWei = .ok wei ∧ w.depositSend = .ok () ∧
      w.depositWait = .ok receipt ∧ w.createQueryString = .ok qs := by
  simp only [run, bind, Outcome.bind, perform, eval, consoleInfo] at h
  repeat' split at h
  all_goals simp_all [steps, Action.step]

/-- A run that reached the fill wait sent the fill. -/
theorem fill_wait_reached_inv {w : World} {argv : Argv}
    (h : Step.fillWait ∈ steps (run w argv).trace) :
    ∃ accounts promise wei receipt qs resp quote price params,
      w.createWeb3 = .ok () ∧ w.newContract = .ok () ∧ w.getAccounts = .ok accounts ∧
      w.getChainId = .ok promise ∧ w.etherToWei = .ok wei ∧ w.depositSend = .ok () ∧
      w.depositWait = .ok receipt ∧ w.createQueryString = .ok qs ∧
      w.fetch = .ok resp ∧ resp.json = .ok quote ∧ quotePrice quote = .ok price ∧
      fillQuoteParams quote = .ok params ∧ w.fillSend = .ok () := by
  simp only [run, bind, Outcome.bind, perform, eval, consoleInfo] at h
  repeat' split at h
  all_goals simp_all [steps, Action.step]

/-- C1: when the deposit's `waitForTxSuccess` rejects, `run` fails with that
error and the rejected wait is its last call: the only protocol steps of the
run are the deposit send and the deposit wait, so there is neither a quote
request nor a fill. -/
theorem deposit_failure_aborts (w : World) (argv : Argv) (e : JsErr)
    (hreach : Step.depositWait ∈ steps (run w argv).trace)
    (hfail : w.depositWait = .error e) :
    (run w argv).result = .error e ∧
    (run w argv).trace.getLast? = some Action.waitDeposit ∧
    steps (run w argv).trace = [.depositSend, .depositWait] ∧
    queries (run w argv).trace = [] ∧
    fillCalls (run w argv).trace = [] := by
  simp only [run, bind, Outcome.bind, perform, eval, consoleInfo] at hreach ⊢
  repeat' split at hreach
  all_goals simp_all [steps, Action.step, fillCalls, queries]

theorem deposit_failure_aborts_witness :
    Step.depositWait ∈ steps (run worldDepositReverts argv0).trace ∧
    worldDepositReverts.depositWait =
      .error (.thrown "Transaction has been reverted by the EVM") ∧
    (run worldDepositReverts argv0).result =
      .error (.thrown "Transaction has been reverted by the EVM") ∧
    steps (run worldDepositReverts argv0).trace = [.depositSend, .depositWait] :=
  ⟨by decide, rfl,
    (deposit_failure_aborts worldDepositReverts argv0 _ (by decide) rfl).1,
    (deposit_failure_aborts worldDepositReverts argv0 _ (by decide) rfl).2.2.1⟩

/-- C9: the protocol steps of every run are an initial segment of
send deposit, await deposit, fetch quote, send fill, await fill (so each
happens at most once and in that order), and a run that sends the fill has
had its deposit wait resolve. -/
theorem steps_follow_protocol (w : World) (argv : Argv) :
    steps (run w argv).trace <+: protocol ∧
    (Step.fillSend ∈ steps (run w argv).trace → ∃ receipt, w.depositWait = .ok receipt) := by
  simp only [run, bind, Outcome.bind, perform, eval, consoleInfo]
  repeat' split
  all_goals simp_all [steps, Action.step, protocol]


theorem get_allowance_of_lacking {quote : JsVal}
    (h : (ownProp quote "issues").bind (fun i => ownProp i "allowance") = none) :
    (quote.get "issues").get "allowance" = .undefined := by
  cases quote <;> try rfl
  rename_i fields
  simp only [ownProp, JsVal.get] at h ⊢
  cases hi : fields.lookup "issues" with
  | none => rfl
  | some i =>
    rw [hi] at h
    cases i <;> try rfl
    rename_i ifields
    simp only [Option.bind, ownProp] at h
    simp [h]

theorem get_spender_of_present {quote v : JsVal}
    (h : ((ownProp quote "issues").bind (fun i => ownProp i "allowance")).bind
      (fun a => ownProp a "spender") = some v) :
    ((quote.get "issues").get "allowance").get "spender" = v := by
  cases quote <;> try (simp [ownProp] at h; done)
  rename_i fields
  simp only [ownProp, JsVal.get] at h ⊢
  cases hi : fields.lookup "issues" with
  | none => simp [hi] at h
  | some i =>
    rw [hi] at h
    cases i <;> try (simp [ownProp] at h; done)
    rename_i ifields
    simp only [Option.bind, ownProp] at h
    cases ha : ifields.lookup "allowance" with
    | none => simp [ha] at h
    | some a =>
      rw [ha] at h
      cases a <;> try (simp [ownProp] at h; done)
      rename_i afields
      simp only [ownProp] at h
      simp [h, ha]

/-- C2: when the quote has no `issues`, or its `issues` has no `allowance`,
every fill call of the run has exactly five arguments and the third is the
zero address string. -/
theorem zero_spender_when_allowance_missing (w : World) (argv : Argv) (resp : Response)
    (quote : JsVal) (args : List JsVal) (options : JsVal)
    (hf : w.fetch = .ok resp) (hj : resp.json = .ok quote)
    (hlack : (ownProp quote "issues").bind (fun i => ownProp i "allowance") = none)
    (hcall : (args, options) ∈ fillCalls (run w argv).trace) :
    args.length = 5 ∧ args.get? 2 = some (.str ZERO_ADDRESS) := by
  obtain ⟨_, _, resp1, quote1, _, _, hf1, hj1, hp, _⟩ := fill_call_inv hcall
  rw [hf] at hf1
  injection hf1 with hf1
  subst hf1
  rw [hj] at hj1
  injection hj1 with hj1
  subst hj1
  rw [fillQuoteParams_eq_ok hp]
  have hs : spenderOrZero quote = .str ZERO_ADDRESS := by
    unfold spenderOrZero
    rw [get_allowance_of_lacking hlack]
    rfl
  simp [hs]

theorem zero_spender_when_allowance_missing_witness :
    (ownProp quoteNoAllowance "issues").bind (fun i => ownProp i "allowance") = none ∧
    (fillArgs0 (.str ZERO_ADDRESS), fillOptions0) ∈
      fillCalls (run (worldWith quoteNoAllowance) argv0).trace ∧
    (fillArgs0 (.str ZERO_ADDRESS)).length = 5 ∧
    (fillArgs0 (.str ZERO_ADDRESS)).get? 2 = some (.str ZERO_ADDRESS) :=
  ⟨rfl, List.mem_singleton.mpr rfl,
    zero_spender_when_allowance_missing (worldWith quoteNoAllowance) argv0
      { ok := true, json := .ok quoteNoAllowance } quoteNoAllowance
      (fillArgs0 (.str ZERO_ADDRESS)) fillOptions0 rfl rfl rfl (List.mem_singleton.mpr rfl)⟩


/-- C10 as stated fails: a quote whose `issues.allowance.spender` is present
and is the empty string leads to a fill call whose third argument is the
zero address, not the empty string. -/
theorem empty_spender_replaced :
    ((ownProp (quoteWithSpender (.str "")) "issues").bind
      (fun i => ownProp i "allowance")).bind (fun a => ownProp a "spender")
        = some (.str "") ∧
    fillCalls (run (worldWith (quoteWithSpender (.str ""))) argv0).trace =
      [(fillArgs0 (.str "0x0000000000000000000000000000000000000000"), fillOptions0)] ∧
    (fillArgs0 (.str "0x0000000000000000000000000000000000000000")).get? 2 ≠
      some (.str "") := by
  refine ⟨rfl, rfl, ?_⟩
  simp [fillArgs0]

/-- C10, amended: when the quote's `issues.allowance.spender` is present with
value `v`, the third argument of every fill call is `v` if `v` is truthy and
the zero address string if `v` is falsy. -/
theorem spender_copied_when_truthy (w : World) (argv : Argv) (resp : Response)
    (quote v : JsVal) (args : List JsVal) (options : JsVal)
    (hf : w.fetch = .ok resp) (hj : resp.json = .ok quote)
    (hs : ((ownProp quote "issues").bind (fun i => ownProp i "allowance")).bind
      (fun a => ownProp a "spender") = some v)
    (hcall : (args, options) ∈ fillCalls (run w argv).trace) :
    args.get? 2 = some (if truthy v then v else .str ZERO_ADDRESS) := by
  obtain ⟨_, _, resp1, quote1, _, _, hf1, hj1, hp, _⟩ := fill_call_inv hcall
  rw [hf] at hf1
  injection hf1 with hf1
  subst hf1
  rw [hj] at hj1
  injection hj1 with hj1
  subst hj1
  rw [fillQuoteParams_eq_ok hp]
  simp [spenderOrZero, get_spender_of_present hs]

theorem spender_copied_when_truthy_witness :
    ((ownProp (quoteWithSpender (.str "0x0000000000001fF3684f28c67538d4D072C22734"))
      "issues").bind (fun i => ownProp i "allowance")).bind (fun a => ownProp a "spender")
        = some (.str "0x0000000000001fF3684f28c67538d4D072C22734") ∧
    (fillArgs0 (.str "0x0000000000001fF3684f28c67538d4D072C22734"), fillOptions0) ∈
      fillCalls (run (worldWith
        (quoteWithSpender (.str "0x0000000000001fF3684f28c67538d4D072C22734"))) argv0).trace ∧
    (fillArgs0 (.str "0x0000000000001fF3684f28c67538d4D072C22734")).get? 2 =
      some (if truthy (.str "0x0000000000001fF3684f28c67538d4D072C22734") then
        .str "0x0000000000001fF3684f28c67538d4D072C22734" else .str ZERO_ADDRESS) :=
  ⟨rfl, List.mem_singleton.mpr rfl,
    spender_copied_when_truthy
      (worldWith (quoteWithSpender (.str "0x0000000000001fF3684f28c67538d4D072C22734"))) argv0
      { ok := true,
        json := .ok (quoteWithSpender (.str "0x0000000000001fF3684f28c67538d4D072C22734")) }
      (quoteWithSpender (.str "0x0000000000001fF3684f28c67538d4D072C22734"))
      (.str "0x0000000000001fF3684f28c67538d4D072C22734")
      (fillArgs0 (.str "0x0000000000001fF3684f28c67538d4D072C22734")) fillOptions0
      rfl rfl rfl (List.mem_singleton.mpr rfl)⟩

/-- C4: in a run that reached the quote fetch (so the deposit was confirmed)
and received the quote `quote`, every fill call has the arguments
`[quote.sellToken, quote.buyToken, spender, quote.transaction.to,
quote.transaction.data]` in this order and the options `from` = first
account, `value` = `quote.value`, `gasPrice` = `quote.gasPrice`; there is at
most one fill call, and there is one whenever the quote and its `transaction`
are neither `undefined` nor `null` and `quote.sellAmount` can be printed. -/
theorem fill_call_shape (w : World) (argv : Argv) (accounts : List JsVal) (resp : Response)
    (quote : JsVal)
    (hreach : Step.quoteFetch ∈ steps (run w argv).trace)
    (hacc : w.getAccounts = .ok accounts)
    (hf : w.fetch = .ok resp) (hj : resp.json = .ok quote) :
    (∀ args options, (args, options) ∈ fillCalls (run w argv).trace →
      args = [quote.get "sellToken", quote.get "buyToken", spenderOrZero quote,
        (quote.get "transaction").get "to", (quote.get "transaction").get "data"] ∧
      options = .obj [("from", accounts.headD .undefined), ("value", quote.get "value"),
        ("gasPrice", quote.get "gasPrice")]) ∧
    (fillCalls (run w argv).trace).length ≤ 1 ∧
    (quote ≠ .undefined → quote ≠ .null →
      quote.get "transaction" ≠ .undefined → quote.get "transaction" ≠ .null →
      toStringThrows (quote.get "sellAmount") = false →
      fillCalls (run w argv).trace =
        [([quote.get "sellToken", quote.get "buyToken", spenderOrZero quote,
            (quote.get "transaction").get "to", (quote.get "transaction").get "data"],
          .obj [("from", accounts.headD .undefined), ("value", quote.get "value"),
            ("gasPrice", quote.get "gasPrice")])]) := by
  refine ⟨?_, fill_calls_le_one w argv, ?_⟩
  · intro args options hcall
    obtain ⟨accounts1, _, resp1, quote1, hacc1, _, hf1, hj1, hp, ho⟩ := fill_call_inv hcall
    rw [hf] at hf1
    injection hf1 with hf1
    subst hf1
    rw [hj] at hj1
    injection hj1 with hj1
    subst hj1
    rw [hacc] at hacc1
    injection hacc1 with hacc1
    subst hacc1
    exact ⟨fillQuoteParams_eq_ok hp, ho⟩
  · intro hu hn htu htn hprint
    obtain ⟨accounts1, promise, wei, receipt, qs, h1, h2, h3, h4, h5, h6, h7, h8⟩ :=
      fetch_reached_inv hreach
    rw [hacc] at h3
    injection h3 with h3
    subst h3
    have hprice : quotePrice quote = .ok (quote.get "sellAmount") := by
      simp [quotePrice, getProp_of_defined _ hu hn, interpolate, hprint, bind, Except.bind]
    simp only [run, bind, Outcome.bind, perform, eval, consoleInfo]
    simp only [h1, h2, hacc, h4, h5, h6, h7, h8, hf, hj, hprice,
      fillQuoteParams_of_defined hu hn htu htn, getProp_of_defined _ hu hn]
    cases w.fillSend <;> simp [fillCalls]
    cases w.fillWait <;> simp [fillCalls]
    cases boughtAmountOf _ <;> simp [fillCalls]
    cases w.weiToEther <;> simp [fillCalls]


theorem fill_call_shape_witness :
    Step.quoteFetch ∈ steps (run world0 argv0).trace ∧
    world0.getAccounts = .ok [.str "0xf39Fd6e51aad88F6F4ce6aB8827279cffFb92266"] ∧
    world0.fetch = .ok { ok := true, json := .ok quote0 } ∧
    fillCalls (run world0 argv0).trace =
      [([.str "0xc02aaa39b223fe8d0a0e5c4f27ead9083c756cc2",
          .str "0x6B175474E89094C44Da98b954EedeAC495271d0F",
          .str "0x0000000000000000000000000000000000000000",
          .str "0xFILL", .str "0xabc"],
        .obj [("from", .str "0xf39Fd6e51aad88F6F4ce6aB8827279cffFb92266"),
          ("value", .str "0"), ("gasPrice", .str "1000000000")])] :=
  ⟨by decide, rfl, rfl,
    (fill_call_shape world0 argv0 _ { ok := true, json := .ok quote0 } quote0
      (by decide) rfl rfl rfl).2.2
      (by simp [quote0]) (by simp [quote0]) (by simp [quote0, JsVal.get, List.lookup])
      (by simp [quote0, JsVal.get, List.lookup]) rfl⟩

/-- C3 as stated fails: for a quote whose `transaction` has no `to`, `run`
raises nothing of its own and makes the fill call, with `undefined` as the
fourth argument; the run ends with the error the contract binding raises on
that call. -/
theorem fill_sent_without_target :
    (ownProp quoteNoTarget "transaction").bind (fun t => ownProp t "to") = none ∧
    fillCalls (run worldNoTarget argv0).trace =
      [([.str "0xc02aaa39b223fe8d0a0e5c4f27ead9083c756cc2",
          .str "0x6B175474E89094C44Da98b954EedeAC495271d0F",
          .str "0x0000000000000000000000000000000000000000",
          .undefined, .str "0xabc"], fillOptions0)] ∧
    (run worldNoTarget argv0).result = .error (.thrown "invalid address") :=
  ⟨rfl, rfl, rfl⟩

/-- C3, amended: in a run that received a quote without any `transaction`,
`run` fails with a `TypeError`, the quote fetch is its last protocol step and
no fill call is made; when `transaction` is an object that only lacks `to`,
every fill call carries `undefined` as its fourth argument. -/
theorem missing_transaction_aborts (w : World) (argv : Argv) (resp : Response)
    (quote : JsVal)
    (hreach : Step.quoteFetch ∈ steps (run w argv).trace)
    (hf : w.fetch = .ok resp) (hj : resp.json = .ok quote) :
    (ownProp quote "transaction" = none →
      (∃ msg, (run w argv).result = .error (.typeError msg)) ∧
      steps (run w argv).trace = [.depositSend, .depositWait, .quoteFetch] ∧
      fillCalls (run w argv).trace = []) ∧
    (∀ tfields, quote.get "transaction" = .obj tfields → tfields.lookup "to" = none →
      ∀ args options, (args, options) ∈ fillCalls (run w argv).trace →
        args.get? 3 = some .undefined) := by
  constructor
  · intro hnone
    have ht : quote.get "transaction" = .undefined := by
      cases quote <;> first | rfl | (simp only [ownProp] at hnone; simp [JsVal.get, hnone])
    obtain ⟨msg, hm⟩ := fillQuoteParams_error (Or.inl ht)
    obtain ⟨accounts1, promise, wei, receipt, qs, h1, h2, h3, h4, h5, h6, h7, h8⟩ :=
      fetch_reached_inv hreach
    simp only [run, bind, Outcome.bind, perform, eval, consoleInfo]
    simp only [h1, h2, h3, h4, h5, h6, h7, h8, hf, hj, hm]
    cases hp : quotePrice quote with
    | error e =>
      have : ∃ m, e = .typeError m := by
        unfold quotePrice interpolate at hp
        cases hq : getProp quote "sellAmount" with
        | error e1 =>
          rw [hq] at hp
          cases quote <;> simp [getProp] at hq
          all_goals (subst hq; simp [bind, Except.bind] at hp; exact ⟨_, hp.symm⟩)
        | ok a =>
          rw [hq] at hp
          simp only [bind, Except.bind] at hp
          split at hp
          · injection hp with hp
            exact ⟨_, hp.symm⟩
          · cases hp
      obtain ⟨m, rfl⟩ := this
      simp [steps, Action.step, fillCalls]
    | ok a => simp [steps, Action.step, fillCalls]
  · intro tfields ht hto args options hcall
    obtain ⟨_, _, resp1, quote1, _, _, hf1, hj1, hp, _⟩ := fill_call_inv hcall
    rw [hf] at hf1
    injection hf1 with hf1
    subst hf1
    rw [hj] at hj1
    injection hj1 with hj1
    subst hj1
    rw [fillQuoteParams_eq_ok hp, ht]
    simp [JsVal.get, hto]

theorem missing_transaction_aborts_witness :
    Step.quoteFetch ∈ steps (run (worldWith quoteNoTransaction) argv0).trace ∧
    ownProp quoteNoTransaction "transaction" = none ∧
    (∃ msg, (run (worldWith quoteNoTransaction) argv0).result = .error (.typeError msg)) ∧
    fillCalls (run (worldWith quoteNoTransaction) argv0).trace = [] ∧
    (∀ args options, (args, options) ∈ fillCalls (run worldNoTarget argv0).trace →
      args.get? 3 = some .undefined) :=
  ⟨by decide, rfl,
    ((missing_transaction_aborts (worldWith quoteNoTransaction) argv0
      { ok := true, json := .ok quoteNoTransaction } quoteNoTransaction
      (by decide) rfl rfl).1 rfl).1,
    ((missing_transaction_aborts (worldWith quoteNoTransaction) argv0
      { ok := true, json := .ok quoteNoTransaction } quoteNoTransaction
      (by decide) rfl rfl).1 rfl).2.2,
    (missing_transaction_aborts worldNoTarget argv0
      { ok := true, json := .ok quoteNoTarget } quoteNoTarget
      (by decide) rfl rfl).2 [("data", .str "0xabc")] rfl rfl⟩

/-- The parameter object of every `createQueryString` call of a run: its
`chainId` is the printed form of the promise `getChainId()` returned. -/
theorem query_shape (w : World) (argv : Argv) (params : JsVal)
    (h : params ∈ queries (run w argv).trace) :
    ∃ accounts wei, w.getAccounts = .ok accounts ∧ w.etherToWei = .ok wei ∧
      depositCalls (run w argv).trace =
        [.obj [("value", wei), ("from", accounts.headD .undefined)]] ∧
      params = .obj [
        ("chainId", .str "[object Promise]"),
        ("sellToken", .str "0xc02aaa39b223fe8d0a0e5c4f27ead9083c756cc2"),
        ("buyToken", .str "0x6B175474E89094C44Da98b954EedeAC495271d0F"),
        ("sellAmount", wei),
        ("taker", accounts.headD .undefined)] := by
  simp only [run, bind, Outcome.bind, perform, eval, consoleInfo] at h ⊢
  repeat' split at h
  all_goals simp_all [queries, depositCalls, JsPromise.toString]

/-- C5 at the end-to-end scenario: the network context reports chain id `1`,
and the `chainId` handed to `createQueryString` is the text
`[object Promise]`; the keys, `sellAmount` and `taker` are as the claim says. -/
theorem chain_id_not_awaited :
    world0.getChainId = .ok { settled := .ok (.num 1), delay := 0 } ∧
    depositCalls (run world0 argv0).trace =
      [.obj [("value", .str "100000000000000000"),
        ("from", .str "0xf39Fd6e51aad88F6F4ce6aB8827279cffFb92266")]] ∧
    queries (run world0 argv0).trace =
      [.obj [
        ("chainId", .str "[object Promise]"),
        ("sellToken", .str "0xc02aaa39b223fe8d0a0e5c4f27ead9083c756cc2"),
        ("buyToken", .str "0x6B175474E89094C44Da98b954EedeAC495271d0F"),
        ("sellAmount", .str "100000000000000000"),
        ("taker", .str "0xf39Fd6e51aad88F6F4ce6aB8827279cffFb92266")]] :=
  ⟨rfl, rfl, rfl⟩

/-- C6 as stated fails: with a response whose status is not a success, `run`
still parses the body, makes the fill call and completes normally. -/
theorem not_ok_response_is_used :
    worldNotOk.fetch = .ok { ok := false, json := .ok quote0 } ∧
    parsesBody (run worldNotOk argv0).trace = true ∧
    fillCalls (run worldNotOk argv0).trace =
      [(fillArgs0 (.str "0x0000000000000000000000000000000000000000"), fillOptions0)] ∧
    (run worldNotOk argv0).result = .ok () :=
  ⟨rfl, rfl, rfl, rfl⟩

/-- C6, amended: `run` never reads the response status.  Once the fetch has
resolved, the body is parsed whatever the status, and the run is the same as
with any other status flag on that response. -/
theorem response_status_ignored (w : World) (argv : Argv) (resp : Response)
    (hreach : Step.quoteFetch ∈ steps (run w argv).trace)
    (hf : w.fetch = .ok resp) :
    parsesBody (run w argv).trace = true ∧
    ∀ b : Bool, run { w with fetch := .ok { resp with ok := b } } argv = run w argv := by
  constructor
  · obtain ⟨accounts1, promise, wei, receipt, qs, h1, h2, h3, h4, h5, h6, h7, h8⟩ :=
      fetch_reached_inv hreach
    simp only [run, bind, Outcome.bind, perform, eval, consoleInfo]
    simp only [h1, h2, h3, h4, h5, h6, h7, h8, hf]
    cases resp.json <;> simp [parsesBody]
  · intro b
    simp only [run, hf, bind, Outcome.bind, perform]

theorem response_status_ignored_witness :
    Step.quoteFetch ∈ steps (run worldNotOk argv0).trace ∧
    parsesBody (run worldNotOk argv0).trace = true ∧
    run { worldNotOk with fetch := .ok { ok := true, json := .ok quote0 } } argv0 =
      run worldNotOk argv0 :=
  ⟨by decide,
    (response_status_ignored worldNotOk argv0 { ok := false, json := .ok quote0 }
      (by decide) rfl).1,
    (response_status_ignored worldNotOk argv0 { ok := false, json := .ok quote0 }
      (by decide) rfl).2 true⟩


theorem get_of_ownProp_none {v : JsVal} {key : String} (h : ownProp v key = none) :
    v.get key = .undefined := by
  cases v <;> first | rfl | (simp only [ownProp] at h; simp [JsVal.get, h])

theorem getProp_typeError (v : JsVal) (key : String) :
    (∃ msg, getProp v key = .error (.typeError msg)) ∨ getProp v key = .ok (v.get key) := by
  cases v <;> simp [getProp]

theorem boughtAmountOf_error {receipt : JsVal}
    (h : ownProp (receipt.get "events") "BoughtTokens" = none) :
    ∃ msg, boughtAmountOf receipt = .error (.typeError msg) := by
  unfold boughtAmountOf
  rcases getProp_typeError receipt "events" with ⟨m, hm⟩ | h1
  · exact ⟨m, by simp [hm, bind, Except.bind]⟩
  · rcases getProp_typeError (receipt.get "events") "BoughtTokens" with ⟨m, hm⟩ | h2
    · exact ⟨m, by simp [h1, hm, bind, Except.bind]⟩
    · rw [get_of_ownProp_none h] at h2
      simp only [h1, h2, bind, Except.bind]
      exact ⟨_, rfl⟩

theorem defined_of_fillQuoteParams {quote : JsVal} {args : List JsVal}
    (h : fillQuoteParams quote = .ok args) : quote ≠ .undefined ∧ quote ≠ .null := by
  constructor <;> intro hq <;> subst hq <;>
    simp [fillQuoteParams, getProp, bind, Except.bind] at h

/-- C7: when the fill's `waitForTxSuccess` resolves with a receipt whose
`events` has no `BoughtTokens` entry, `run` fails with a `TypeError` right
after that wait: the amount is not converted and no success line is
written. -/
theorem missing_event_fails (w : World) (argv : Argv) (receipt : JsVal)
    (hreach : Step.fillWait ∈ steps (run w argv).trace)
    (hw : w.fillWait = .ok receipt)
    (hno : ownProp (receipt.get "events") "BoughtTokens" = none) :
    (∃ msg, (run w argv).result = .error (.typeError msg)) ∧
    (run w argv).trace.getLast? = some Action.waitFill ∧
    successLines (run w argv).trace = [] := by
  obtain ⟨msg, hm⟩ := boughtAmountOf_error hno
  obtain ⟨accounts, promise, wei, dreceipt, qs, resp, quote, price, params,
    h1, h2, h3, h4, h5, h6, h7, h8, h9, h10, h11, h12, h13⟩ := fill_wait_reached_inv hreach
  obtain ⟨hu, hn⟩ := defined_of_fillQuoteParams h12
  have hv := getProp_of_defined "value" hu hn
  have hg := getProp_of_defined "gasPrice" hu hn
  simp only [run, bind, Outcome.bind, perform, eval, consoleInfo]
  simp only [h1, h2, h3, h4, h5, h6, h7, h8, h9, h10, h11, h12, h13, hw, hm, hv, hg]
  simp [successLines]

theorem missing_event_fails_witness :
    Step.fillWait ∈ steps (run worldNoEvent argv0).trace ∧
    worldNoEvent.fillWait = .ok receiptNoEvent ∧
    ownProp (receiptNoEvent.get "events") "BoughtTokens" = none ∧
    (∃ msg, (run worldNoEvent argv0).result = .error (.typeError msg)) ∧
    successLines (run worldNoEvent argv0).trace = [] :=
  ⟨by decide, rfl, rfl,
    (missing_event_fails worldNoEvent argv0 receiptNoEvent (by decide) rfl rfl).1,
    (missing_event_fails worldNoEvent argv0 receiptNoEvent (by decide) rfl rfl).2.2⟩

theorem stdout_only (w : World) (argv : Argv) :
    stderrLines (run w argv).trace = [] ∧ successLines (run w argv).trace.dropLast = [] := by
  simp only [run, bind, Outcome.bind, perform, eval, consoleInfo]
  repeat' split
  all_goals simp [stderrLines, successLines]

theorem failFast_bind {w : World} {α β : Type} {m : Outcome α} {f : α → Outcome β}
    (hm : FailFast w m) (hf : ∀ x, m.result = .ok x → FailFast w (f x)) :
    FailFast w (m >>= f) := by
  intro a e ha hfail
  simp only [bind, Outcome.bind] at ha ⊢
  cases hr : m.result with
  | error e1 =>
    simp only [hr] at ha ⊢
    have h1 := hm a e ha hfail
    rw [hr] at h1
    injection h1 with h1
    rw [h1]
  | ok x =>
    simp only [hr] at ha ⊢
    rcases List.mem_append.mp ha with h1 | h2
    · have := hm a e h1 hfail
      rw [hr] at this
      cases this
    · exact hf x hr a e h2 hfail

theorem failFast_perform {w : World} {α : Type} {a : Action} {r : Except JsErr α}
    (h : w.failure a = errorOf r) : FailFast w (perform a r) := by
  intro b e hb hfail
  simp only [perform, List.mem_singleton] at hb ⊢
  subst hb
  rw [h] at hfail
  cases r <;> simp_all [errorOf]

theorem failFast_eval {w : World} {α : Type} (r : Except JsErr α) : FailFast w (eval r) := by
  intro b e hb _
  simp [eval] at hb

theorem failFast_info {w : World} (m : Message) : FailFast w (consoleInfo m) :=
  failFast_perform rfl

theorem failFast_run (w : World) (argv : Argv) : FailFast w (run w argv) := by
  unfold run
  refine failFast_bind (failFast_perform rfl) fun _ _ => ?_
  refine failFast_bind (failFast_perform rfl) fun _ _ => ?_
  refine failFast_bind (failFast_perform rfl) fun accounts _ => ?_
  refine failFast_bind (failFast_perform rfl) fun chainId _ => ?_
  refine failFast_bind (failFast_perform rfl) fun wei _ => ?_
  refine failFast_bind (failFast_info _) fun _ _ => ?_
  refine failFast_bind (failFast_perform rfl) fun _ _ => ?_
  refine failFast_bind (failFast_perform rfl) fun _ _ => ?_
  refine failFast_bind (failFast_info _) fun _ _ => ?_
  refine failFast_bind (failFast_perform rfl) fun qs _ => ?_
  refine failFast_bind (failFast_info _) fun _ _ => ?_
  refine failFast_bind (failFast_perform rfl) fun response hresp => ?_
  have hj : w.failure Action.json = errorOf response.json := by
    simp only [perform] at hresp
    simp [World.failure, hresp]
  refine failFast_bind (failFast_perform hj) fun quote _ => ?_
  refine failFast_bind (failFast_eval _) fun price _ => ?_
  refine failFast_bind (failFast_info _) fun _ _ => ?_
  refine failFast_bind (failFast_info _) fun _ _ => ?_
  refine failFast_bind (failFast_eval _) fun params _ => ?_
  refine failFast_bind (failFast_eval _) fun value _ => ?_
  refine failFast_bind (failFast_eval _) fun gasPrice _ => ?_
  refine failFast_bind (failFast_perform rfl) fun _ _ => ?_
  refine failFast_bind (failFast_perform rfl) fun receipt _ => ?_
  refine failFast_bind (failFast_eval _) fun amount _ => ?_
  refine failFast_bind (failFast_perform rfl) fun bought _ => ?_
  exact failFast_info _


theorem cutAt_some {n : Nat} {t calls : List Action} (h : cutAt n t = some calls) :
    calls <+: t ∧
    ∃ front a, calls = front ++ [a] ∧ a.suspends = true ∧ front <+: t.dropLast := by
  induction t generalizing n calls with
  | nil => simp [cutAt] at h
  | cons b rest ih =>
    have step : ∀ m c, cutAt m rest = some c →
        (b :: c) <+: (b :: rest) ∧
        ∃ front a, b :: c = front ++ [a] ∧ a.suspends = true ∧
          front <+: (b :: rest).dropLast := by
      intro m c hc
      obtain ⟨hp, front, a, hfa, hs, hfront⟩ := ih hc
      have hne : rest ≠ [] := by
        intro hnil
        subst hnil
        simp [cutAt] at hc
      refine ⟨(List.prefix_cons_inj b).mpr hp, b :: front, a, by simp [hfa], hs, ?_⟩
      obtain ⟨x, xs, hx⟩ := List.exists_cons_of_ne_nil hne
      subst hx
      simpa [List.dropLast] using hfront
    unfold cutAt at h
    by_cases hb : b.suspends = true
    · simp only [hb, if_true] at h
      cases n with
      | zero =>
        simp only [Option.some.injEq] at h
        subst h
        exact ⟨by simp, [], b, rfl, hb, List.nil_prefix⟩
      | succ m =>
        obtain ⟨c, hc, rfl⟩ := Option.map_eq_some'.mp h
        exact step m c hc
    · rw [if_neg hb] at h
      obtain ⟨c, hc, rfl⟩ := Option.map_eq_some'.mp h
      exact step n c hc

theorem cutAt_isSome {n : Nat} {t : List Action}
    (h : n < (t.filter Action.suspends).length) : (cutAt n t).isSome = true := by
  induction t generalizing n with
  | nil => simp at h
  | cons b rest ih =>
    unfold cutAt
    by_cases hb : b.suspends = true
    · simp only [hb, if_true]
      cases n with
      | zero => rfl
      | succ m =>
        simp only [List.filter_cons, hb, if_true, List.length_cons] at h
        have := ih (Nat.lt_of_succ_lt_succ h)
        simpa using this
    · rw [if_neg hb]
      rw [List.filter_cons, if_neg hb] at h
      have := ih h
      simpa using this


theorem filterMap_of_prefix_nil {β : Type} (f : Action → Option β) {calls t : List Action}
    (hp : calls <+: t) (ht : t.filterMap f = []) : calls.filterMap f = [] :=
  List.prefix_nil.mp (ht ▸ List.IsPrefix.filterMap f hp)

/-- What is written and how the process ends when an unhandled rejection
cuts `run` short. -/
theorem killed_spec {w : World} {argv : Argv} {calls : List Action} {e : JsErr}
    (h : killed w argv = some (calls, e)) :
    calls <+: (run w argv).trace ∧
    command w argv = calls ++ [Action.uncaught e, Action.exit 1] ∧
    stderrLines (command w argv) = [e] ∧
    exitCodes (command w argv) = [1] ∧
    successLines (command w argv) = [] := by
  have hcmd : command w argv = calls ++ [Action.uncaught e, Action.exit 1] := by
    simp [command, h]
  have hcut : ∃ n, cutAt n (run w argv).trace = some calls := by
    unfold killed at h
    split at h
    · obtain ⟨c, hc, hce⟩ := Option.map_eq_some'.mp h
      injection hce with h1 h2
      subst h1
      exact ⟨_, hc⟩
    · cases h
  obtain ⟨n, hn⟩ := hcut
  obtain ⟨hp, front, a, hfa, hsus, hfront⟩ := cutAt_some hn
  obtain ⟨hx, _⟩ := run_no_exit w argv
  obtain ⟨he, hdl⟩ := stdout_only w argv
  have h1 : exitCodes calls = [] := filterMap_of_prefix_nil _ hp hx
  have h2 : stderrLines calls = [] := filterMap_of_prefix_nil _ hp he
  have h3 : successLines front = [] := filterMap_of_prefix_nil _ hfront hdl
  have h4 : successLines calls = [] := by
    rw [hfa]
    simp only [successLines, List.filterMap_append] at h3 ⊢
    rw [h3]
    cases a <;> simp [Action.suspends] at hsus <;> simp
  refine ⟨hp, hcmd, ?_, ?_, ?_⟩
  · rw [hcmd]
    simp only [stderrLines, List.filterMap_append] at h2 ⊢
    simp [h2]
  · rw [hcmd]
    simp only [exitCodes, List.filterMap_append] at h1 ⊢
    simp [h1]
  · rw [hcmd]
    simp only [successLines, List.filterMap_append] at h4 ⊢
    simp [h4]


/-- What the handler does after `run`: exit 0 on a normal completion; on a
throw, the error on the standard error stream and exit 1. -/
theorem handler_spec (w : World) (argv : Argv) :
    (exitCodes (handler w argv) = [0] ↔ (run w argv).result = .ok ()) ∧
    ((run w argv).result = .ok () →
      handler w argv = (run w argv).trace ++ [Action.exit 0]) ∧
    (∀ e, (run w argv).result = .error e →
      handler w argv = (run w argv).trace ++ [Action.consoleError e, Action.exit 1] ∧
      stderrLines (handler w argv) = [e] ∧
      exitCodes (handler w argv) = [1] ∧
      successLines (handler w argv) = []) := by
  obtain ⟨hx, _⟩ := run_no_exit w argv
  obtain ⟨he, _⟩ := stdout_only w argv
  obtain ⟨_, hs⟩ := success_line_iff w argv
  refine ⟨?_, ?_, ?_⟩
  · unfold handler
    cases hr : (run w argv).result with
    | error e =>
      simp only [exitCodes, List.filterMap_append] at hx ⊢
      simp [hx]
    | ok u =>
      simp only [exitCodes, List.filterMap_append] at hx ⊢
      simp [hx]
  · intro hr
    simp [handler, hr]
  · intro e hr
    have hs1 := hs e hr
    simp only [handler, hr]
    simp only [exitCodes, stderrLines, successLines, List.filterMap_append] at hx he hs1 ⊢
    simp [hx, he, hs1]

/-- C8: the process exits with code 0 exactly when `run` completes without
throwing (and then `process.exit(0)` is the only further call).  Every
failing step makes the process write the error to the standard error stream
and exit with code 1, without a success line: a call of `run` answered with
a throw or a rejection, and a member read or template substitution that
throws, make `run` throw that error, which the handler writes before
`process.exit(1)`; the rejection of the un-awaited `getChainId()` promise,
arriving while `run` is suspended, ends the process the same way through the
runtime. -/
theorem command_exit_code (w : World) (argv : Argv) :
    (exitCodes (command w argv) = [0] ↔
      killed w argv = none ∧ (run w argv).result = .ok ()) ∧
    (killed w argv = none → (run w argv).result = .ok () →
      command w argv = (run w argv).trace ++ [Action.exit 0]) ∧
    (∀ a e, a ∈ (run w argv).trace → w.failure a = some e →
      (run w argv).result = .error e) ∧
    (∀ resp quote e, Step.quoteFetch ∈ steps (run w argv).trace →
      w.fetch = .ok resp → resp.json = .ok quote →
      (quotePrice quote = .error e ∨
        ((∃ price, quotePrice quote = .ok price) ∧ fillQuoteParams quote = .error e)) →
      (run w argv).result = .error e) ∧
    (∀ receipt e, Step.fillWait ∈ steps (run w argv).trace →
      w.fillWait = .ok receipt → boughtAmountOf receipt = .error e →
      (run w argv).result = .error e) ∧
    (∀ e, killed w argv = none → (run w argv).result = .error e →
      command w argv = (run w argv).trace ++ [Action.consoleError e, Action.exit 1] ∧
      stderrLines (command w argv) = [e] ∧
      exitCodes (command w argv) = [1] ∧
      successLines (command w argv) = []) ∧
    (∀ e n, w.getChainId = .ok { settled := .error e, delay := n } →
      n < ((run w argv).trace.filter Action.suspends).length →
      ∃ calls, killed w argv = some (calls, e)) ∧
    (∀ calls e, killed w argv = some (calls, e) →
      calls <+: (run w argv).trace ∧
      command w argv = calls ++ [Action.uncaught e, Action.exit 1] ∧
      stderrLines (command w argv) = [e] ∧
      exitCodes (command w argv) = [1] ∧
      successLines (command w argv) = []) := by
  obtain ⟨h0, hok, herr⟩ := handler_spec w argv
  refine ⟨?_, ?_, ?_, ?_, ?_, ?_, ?_, ?_⟩
  · cases hk : killed w argv with
    | none =>
      have hc : command w argv = handler w argv := by simp [command, hk]
      rw [hc]
      simpa using h0
    | some ce =>
      obtain ⟨calls, e⟩ := ce
      have := (killed_spec hk).2.2.2.1
      rw [this]
      simp
  · intro hk hr
    have hc : command w argv = handler w argv := by simp [command, hk]
    rw [hc]
    exact hok hr
  · intro a e ha hf
    exact failFast_run w argv a e ha hf
  · intro resp quote e hreach hf hj hthrow
    obtain ⟨accounts, promise, wei, receipt, qs, h1, h2, h3, h4, h5, h6, h7, h8⟩ :=
      fetch_reached_inv hreach
    simp only [run, bind, Outcome.bind, perform, eval, consoleInfo]
    simp only [h1, h2, h3, h4, h5, h6, h7, h8, hf, hj]
    rcases hthrow with hp | ⟨⟨price, hp⟩, hq⟩
    · simp only [hp]
    · simp only [hp, hq]
  · intro receipt e hreach hw hb
    obtain ⟨accounts, promise, wei, dreceipt, qs, resp, quote, price, params,
      h1, h2, h3, h4, h5, h6, h7, h8, h9, h10, h11, h12, h13⟩ := fill_wait_reached_inv hreach
    obtain ⟨hu, hn⟩ := defined_of_fillQuoteParams h12
    simp only [run, bind, Outcome.bind, perform, eval, consoleInfo]
    simp only [h1, h2, h3, h4, h5, h6, h7, h8, h9, h10, h11, h12, h13, hw, hb,
      getProp_of_defined "value" hu hn, getProp_of_defined "gasPrice" hu hn]
  · intro e hk hr
    have hc : command w argv = handler w argv := by simp [command, hk]
    rw [hc]
    exact herr e hr
  · intro e n hg hn
    have := cutAt_isSome hn
    obtain ⟨calls, hcalls⟩ := Option.isSome_iff_exists.mp this
    exact ⟨calls, by simp [killed, hg, hcalls]⟩
  · intro calls e hk
    exact killed_spec hk


theorem command_exit_code_witness :
    (run worldFetchRejects argv0).result =
      .error (.thrown "request to https://api.0x.org failed") ∧
    stderrLines (command worldFetchRejects argv0) =
      [.thrown "request to https://api.0x.org failed"] ∧
    exitCodes (command worldFetchRejects argv0) = [1] ∧
    (run worldFillReverts argv0).result =
      .error (.thrown "Transaction has been reverted by the EVM") ∧
    (run worldNoEvent argv0).result =
      .error (.typeError "Cannot read properties of undefined (reading 'returnValues')") ∧
    stderrLines (command worldChainIdRejects argv0) = [.thrown "Invalid JSON RPC response"] ∧
    exitCodes (command worldChainIdRejects argv0) = [1] ∧
    successLines (command worldChainIdRejects argv0) = [] ∧
    exitCodes (command world0 argv0) = [0] ∧
    exitCodes (command worldChainIdLate argv0) = [0] :=
  ⟨(command_exit_code worldFetchRejects argv0).2.2.1 (Action.fetch _) _
      (List.get?_mem (n := 11) rfl) rfl,
    ((command_exit_code worldFetchRejects argv0).2.2.2.2.2.1 _ rfl
      ((command_exit_code worldFetchRejects argv0).2.2.1 (Action.fetch _) _
        (List.get?_mem (n := 11) rfl) rfl)).2.1,
    ((command_exit_code worldFetchRejects argv0).2.2.2.2.2.1 _ rfl
      ((command_exit_code worldFetchRejects argv0).2.2.1 (Action.fetch _) _
        (List.get?_mem (n := 11) rfl) rfl)).2.2.1,
    (command_exit_code worldFillReverts argv0).2.2.1 Action.waitFill _
      (List.get?_mem (n := 16) rfl) rfl,
    (command_exit_code worldNoEvent argv0).2.2.2.2.1 receiptNoEvent _ (by decide) rfl rfl,
    ((command_exit_code worldChainIdRejects argv0).2.2.2.2.2.2.2 _ _ rfl).2.2.1,
    ((command_exit_code worldChainIdRejects argv0).2.2.2.2.2.2.2 _ _ rfl).2.2.2.1,
    ((command_exit_code worldChainIdRejects argv0).2.2.2.2.2.2.2 _ _ rfl).2.2.2.2,
    (command_exit_code world0 argv0).1.mpr ⟨rfl, rfl⟩,
    (command_exit_code worldChainIdLate argv0).1.mpr ⟨rfl, rfl⟩⟩

end SwapContract
